import Mathlib

/-!
Verification of the armer `ROSRobot` motion-control core
(`src/armer/robots/ROSRobot.py`) against its natural-language
specification.

The Python class is shallowly embedded as follows.

* The named-pose store (`self.named_poses`, a Python `dict` loaded from
  YAML files) is embedded as an association list `List (String × V)`
  with first-match lookup, in-place replacement on assignment, and
  `dict.update` as a left fold of assignments — the observable
  semantics of a Python `dict` with unique keys.
* Numeric scalars are embedded as `ℚ` where no square root occurs and as
  `ℝ` in the trajectory loop, whose speed cap uses the Euclidean norm
  (`np.linalg.norm`).
* ROS callbacks are embedded as pure functions from the request plus the
  relevant mutable state to the new state and the replies sent; blocking
  loops take a finite trace of environment interactions (joint feedback
  and preemption signals delivered while the loop sleeps/waits) and
  return `none` when the trace is exhausted before the loop exits.
* A Python exception that escapes a callback (`KeyError` from indexing a
  missing dict key) is embedded as an explicit error value.
-/

set_option maxHeartbeats 1000000

namespace Armer

/-! ## Python dict embedding (the named-pose store) -/

/-- First-match lookup, `d[k]` / `k in d` read side of a Python dict. -/
def dictGet {V : Type} (k : String) : List (String × V) → Option V
  | [] => none
  | kv :: rest => if kv.1 = k then some kv.2 else dictGet k rest

/-- Assignment `d[k] = v` of a Python dict: replace the value of an
existing key in place, otherwise append the new binding. -/
def dictInsert {V : Type} (k : String) (v : V) : List (String × V) → List (String × V)
  | [] => [(k, v)]
  | kv :: rest => if kv.1 = k then (k, v) :: rest else kv :: dictInsert k v rest

/-- Deletion `del d[k]` of a Python dict, on a key known to be present:
remove the binding of `k`. -/
def dictErase {V : Type} (k : String) : List (String × V) → List (String × V)
  | [] => []
  | kv :: rest => if kv.1 = k then rest else kv :: dictErase k rest

/-- Python `d.update(other)`: assign every binding of `other` into `d`,
in iteration order of `other`. -/
def dictUpdate {V : Type} (d other : List (String × V)) : List (String × V) :=
  other.foldl (fun acc kv => dictInsert kv.1 kv.2 acc) d

/-! ## `__load_config` (ROSRobot.py lines 989-1010)

`named_poses = {}`; each auxiliary source in `self.custom_configs` is
loaded in list order and merged with `dict.update`; afterwards the
primary persisted source at `self.config_path` is loaded (if the file
exists and parses with a truthy `named_poses` key) and merged last with
`dict.update`.  A source is embedded as `Option (List (String × V))`:
`none` models an unreadable/missing file or one without a truthy
`named_poses` key (such a source is skipped), `some d` models a source
whose `named_poses` mapping is `d`. -/

/-- Embedding of `ROSRobot.__load_config`: auxiliary sources first (in
list order), the primary persisted source last. -/
def load_config {V : Type} (customs : List (Option (List (String × V))))
    (primary : Option (List (String × V))) : List (String × V) :=
  let base := customs.foldl
    (fun acc c => match c with
      | some cfg => dictUpdate acc cfg
      | none => acc) []
  match primary with
  | some cfg => dictUpdate base cfg
  | none => base

/-! ## Named-pose service callbacks (ROSRobot.py lines 835-871, 469-501) -/

/-- Embedding of `ROSRobot.add_named_pose_cb`.  `store` is
`self.named_poses`, `q` is the live joint configuration `self.q` at the
moment of the call (the value actually stored — the request carries only
a name and an overwrite flag, no pose payload).  Returns the new store
and the `success` field of the reply. -/
def add_named_pose_cb (store : List (String × List ℚ)) (q : List ℚ)
    (pose_name : String) (overwrite : Bool) : List (String × List ℚ) × Bool :=
  if (dictGet pose_name store).isSome ∧ overwrite = false then
    (store, false)
  else
    (dictInsert pose_name q store, true)

/-- Embedding of `ROSRobot.remove_named_pose_cb`.  The guard rejects only
when the name is absent AND `overwrite` is false; when the guard is
passed with the name still absent (absent name, `overwrite = true`),
`del self.named_poses[req.pose_name]` raises `KeyError`, embedded as
`Except.error`. -/
def remove_named_pose_cb (store : List (String × List ℚ))
    (pose_name : String) (overwrite : Bool) :
    Except String (List (String × List ℚ) × Bool) :=
  if (dictGet pose_name store).isNone ∧ overwrite = false then
    Except.ok (store, false)
  else
    match dictGet pose_name store with
    | none => Except.error "KeyError"
    | some _ => Except.ok (dictErase pose_name store, true)

/-- Reply sent on a move-to-named-pose action channel. -/
inductive NPReply
  | setSucceeded (success : Bool)
  | setAborted (success : Bool)
  deriving DecidableEq, Repr

/-- Embedding of `ROSRobot.named_pose_cb`.  When `goal.pose_name` is not
in `self.named_poses` the code calls `set_aborted` but does NOT return;
it then evaluates `self.named_poses[goal.pose_name]`, which raises
`KeyError`.  The embedding returns the list of replies sent on the
action channel together with `some exc` when an exception escapes the
callback.  `trajResult` abstracts the boolean returned by
`self.__traj_move` on the known-pose path. -/
def named_pose_cb (store : List (String × List ℚ)) (pose_name : String)
    (trajResult : Bool) : List NPReply × Option String :=
  let sent : List NPReply :=
    if (dictGet pose_name store).isNone then [NPReply.setAborted false] else []
  match dictGet pose_name store with
  | none => (sent, some "KeyError")
  | some _ =>
      if trajResult then (sent ++ [NPReply.setSucceeded true], none)
      else (sent ++ [NPReply.setAborted false], none)

/-! ## Guard evaluation (ROSRobot.py lines 790-821) -/

/-- Bitmask constant `Guards.GUARD_DURATION` of `armer_msgs`. -/
def GUARD_DURATION : ℕ := 1

/-- Bitmask constant `Guards.GUARD_EFFORT` of `armer_msgs`. -/
def GUARD_EFFORT : ℕ := 2

/-- The fields of an `armer_msgs/Guards` message used by `test_guards`:
the enabled-guard bitmask, the duration threshold, and the six
per-component effort thresholds (force x y z, torque x y z). -/
structure Guards where
  enabled : ℕ
  duration : ℚ
  effort : Fin 6 → ℚ

/-- Embedding of `ROSRobot.test_guards`.  `elapsed` is
`timeit.default_timer() - start_time`; `wrench` is the six components of
`self.state.ee_wrench` (force x y z, torque x y z). -/
def test_guards (g : Guards) (elapsed : ℚ) (wrench : Fin 6 → ℚ) : ℕ :=
  let t1 : ℕ :=
    if g.enabled &&& GUARD_DURATION = GUARD_DURATION then
      (if elapsed > g.duration then GUARD_DURATION else 0)
    else 0
  let t2 : ℕ :=
    if g.enabled &&& GUARD_EFFORT = GUARD_EFFORT then
      (if ∃ i, |wrench i| > g.effort i then GUARD_EFFORT else 0)
    else 0
  ((0 : ℕ) ||| t1) ||| t2

/-! ## Guarded velocity action (ROSRobot.py lines 302-319) -/

/-- One iteration's worth of interaction of the guarded-velocity loop
with its environment: the value `test_guards` returns this iteration,
and whether a preemption request arrives during the subsequent
`__vel_move` / `rospy.sleep(0.01)` of this iteration. -/
structure GVStep where
  guardVal : ℕ
  preemptDuringSleep : Bool

/-- Reply sent on the guarded-velocity action channel, with the
`triggered` field of the `GuardedVelocityResult` message. -/
inductive GVReply
  | setSucceeded (triggered : Bool)
  | setAborted (triggered : Bool)
  deriving DecidableEq, Repr

/-- The `while not self.preempted` loop of
`ROSRobot.guarded_velocity_cb`: evaluate the guards, break when some
guard tripped, otherwise apply the velocity and sleep 10 ms (during
which a preemption request may arrive).  Returns the final value of the
local `triggered` together with the preemption flag at exit, or `none`
when the environment trace ends before the loop exits. -/
def gv_loop : Bool → ℕ → List GVStep → Option (ℕ × Bool)
  | pre, triggered, steps =>
    if pre then some (triggered, pre)
    else
      match steps with
      | [] => none
      | s :: rest =>
          if s.guardVal ≠ 0 then some (s.guardVal, pre)
          else gv_loop (pre || s.preemptDuringSleep) s.guardVal rest

/-- Embedding of `ROSRobot.guarded_velocity_cb`: run the guarded loop,
then reply `set_succeeded(GuardedVelocityResult(triggered=True))` — the
literal constant `True`, independent of the computed trip cause and of
whether the loop ended by guard trip or by preemption.  The first
component of the returned pair is the final value of the local
`triggered` variable, the second the reply actually sent. -/
def guarded_velocity_cb (pre : Bool) (steps : List GVStep) :
    Option (ℕ × GVReply) :=
  (gv_loop pre 0 steps).map (fun r => (r.1, GVReply.setSucceeded true))

/-! ## `preempt` (ROSRobot.py lines 554-562) -/

/-- The mutable control state touched by `ROSRobot.preempt`:
the preemption flag, the motion flag, the cartesian velocity target
`e_v`, the joint velocity target `j_v`, and the commanded output
velocity `qd`. -/
structure CtrlState where
  preempted : Bool
  moving : Bool
  e_v : List ℚ
  j_v : List ℚ
  qd : List ℚ
  deriving DecidableEq, Repr

/-- Embedding of `ROSRobot.preempt`: set the preemption flag and
multiply `e_v`, `j_v` and `qd` elementwise by zero. -/
def preempt (s : CtrlState) : CtrlState :=
  { s with
    preempted := true
    e_v := s.e_v.map (fun x => x * 0)
    j_v := s.j_v.map (fun x => x * 0)
    qd := s.qd.map (fun x => x * 0) }

/-! ## Staleness decay in `step` (ROSRobot.py lines 929-934 and 976-980)

Both snippets are syntactically identical up to the decayed variable:
inside `if any(v):`, when more than 0.1 s have elapsed since
`self.last_update`, the vector is multiplied by the scalar
`0.9 if np.sum(np.absolute(v)) >= 0.0001 else 0`. -/

/-- Embedding of the cartesian-velocity staleness decay of
`ROSRobot.step` (lines 930-933), acting on `self.e_v`.  `elapsed` is
`current_time - self.last_update`. -/
def step_ev_decay (v : List ℚ) (elapsed : ℚ) : List ℚ :=
  if v.any (fun x => x != 0) then
    if elapsed > 1/10 then
      v.map (fun x => x * (if (v.map (fun y => |y|)).sum ≥ 1/10000 then 9/10 else 0))
    else v
  else v

/-- Embedding of the joint-velocity staleness decay of `ROSRobot.step`
(lines 977-980), acting on `self.j_v`.  `elapsed` is
`current_time - self.last_update`. -/
def step_jv_decay (v : List ℚ) (elapsed : ℚ) : List ℚ :=
  if v.any (fun x => x != 0) then
    if elapsed > 1/10 then
      v.map (fun x => x * (if (v.map (fun y => |y|)).sum ≥ 1/10000 then 9/10 else 0))
    else v
  else v

/-! ## Trajectory execution `__traj_move` (ROSRobot.py lines 588-727)

The active ("TEST NEW Method") loop.  The kinematic model library is out
of scope; the base Jacobian `self.jacob0` is taken as a black-box
function parameter `jac`.  Joint vectors are `Fin n → ℝ`, twists are
`Fin 6 → ℝ`.  Since `traj.q` interpolates from the live `self.q` to the
goal, `qfunc(1)` is the goal row, embedded as `ep`; the loop reads the
live `self.q`, updated by the feedback subscriber while the loop blocks
in `self.event.wait()`, so each iteration's wait consumes one
environment step carrying the next joint feedback and any preemption
signal that arrived meanwhile. -/

/-- Joint feedback and preemption signal delivered to the trajectory
loop while it blocks in `self.event.wait()` at the end of an
iteration. -/
structure TrajEnvStep (n : ℕ) where
  q : Fin n → ℝ
  pre : Bool

/-- Cause of exit from the `__traj_move` loop: the `while` head's
duration test failing, the in-body proximity break, or the `while`
head's preemption test. -/
inductive TrajExit
  | duration
  | arrival
  | preemptStop
  deriving DecidableEq, Repr

/-- Observable outcome of `__traj_move`: the exit cause, the returned
boolean (`result = not self.preempted`), the commanded joint velocity
after the exit assignment `self.j_v = [0] * self.n`, and — for
specification purposes — the live joint vector, preemption flag and
profile time `t` at the moment of exit. -/
structure TrajOut (n : ℕ) where
  exitCause : TrajExit
  result : Bool
  j_v : Fin n → ℝ
  qExit : Fin n → ℝ
  preExit : Bool
  tExit : ℝ

/-- Embedding of `total_time_cal = np.max(np.fabs((end_point - beg_point)
/ av_vel))` with `av_vel = 0.025` (lines 607-612).  The fold base 0 is
inert: every entry is nonnegative and the joint count is positive. -/
noncomputable def total_time_cal {n : ℕ} (beg ep : Fin n → ℝ) : ℝ :=
  (List.ofFn (fun i => |ep i - beg i| / (1/40))).foldr max 0

/-- Embedding of the per-step minimum-jerk joint-velocity profile
(lines 636-638): `jV = frequency * (1/time_freq) * (end_point - q) *
(30 u^2 - 60 u^3 + 30 u^4)` with `u = time/time_freq`. -/
noncomputable def min_jerk_jv {n : ℕ} (fr : ℝ) (tf : ℕ) (ep q : Fin n → ℝ)
    (time : ℕ) : Fin n → ℝ :=
  fun i => fr * (1 / (tf : ℝ)) * (ep i - q i) *
    (30 * ((time : ℝ) / (tf : ℝ)) ^ 2
      - 60 * ((time : ℝ) / (tf : ℝ)) ^ 3
      + 30 * ((time : ℝ) / (tf : ℝ)) ^ 4)

/-- Euclidean norm of the linear part of a twist:
`np.linalg.norm(twist[:3])` (line 657). -/
noncomputable def norm3 (v : Fin 6 → ℝ) : ℝ :=
  Real.sqrt (v 0 ^ 2 + v 1 ^ 2 + v 2 ^ 2)

/-- Euclidean norm of a full twist: `np.linalg.norm(normalised_vel)`
(line 663). -/
noncomputable def norm6 (v : Fin 6 → ℝ) : ℝ :=
  Real.sqrt (v 0 ^ 2 + v 1 ^ 2 + v 2 ^ 2 + v 3 ^ 2 + v 4 ^ 2 + v 5 ^ 2)

/-- Embedding of the speed-cap scaling (lines 660-664):
`time_scaling = 1`; when `linear_vel > max_speed`,
`normalised_vel = (twist / linear_vel) * max_speed` and
`time_scaling = np.linalg.norm(normalised_vel) / linear_vel`. -/
noncomputable def time_scaling (twist : Fin 6 → ℝ) (max_speed : ℝ) : ℝ :=
  if norm3 twist > max_speed then
    norm6 (fun i => twist i / norm3 twist * max_speed) / norm3 twist
  else 1

/-- The three exit tests of one pass of the `__traj_move` loop, in
source order: the `while` head `t + delta < total_time_cal and not
self.preempted` (duration test first, Python `and` short-circuits), then
the in-body break `np.all(np.fabs(qfunc(1) - self.q) < 0.02)`.  When an
exit is taken, the post-loop epilogue runs: `self.j_v = [0] * self.n`;
`result = not self.preempted`. -/
noncomputable def trajExitCheck {n : ℕ} (delta total : ℝ) (ep : Fin n → ℝ)
    (t : ℝ) (q : Fin n → ℝ) (pre : Bool) : Option (TrajOut n) :=
  if ¬ t + delta < total then
    some ⟨TrajExit.duration, !pre, fun _ => 0, q, pre, t⟩
  else if pre then
    some ⟨TrajExit.preemptStop, !pre, fun _ => 0, q, pre, t⟩
  else if ∀ i, |ep i - q i| < 1/50 then
    some ⟨TrajExit.arrival, !pre, fun _ => 0, q, pre, t⟩
  else none

/-- The `while` loop of `__traj_move` (lines 626-675).  Each iteration
that passes the exit tests computes `jV = min_jerk * kP` with
`kP = 1500`, converts it to a twist through the base Jacobian, derives
`time_scaling` from the speed cap, advances `t += delta * time_scaling`,
commands `self.j_v = jV * time_scaling`, waits for the next control tick
(consuming one environment step) and increments `time`.  Returns `none`
when the environment trace is exhausted before the loop exits. -/
noncomputable def trajLoopAux {n : ℕ}
    (jac : (Fin n → ℝ) → Matrix (Fin 6) (Fin n) ℝ)
    (ms delta total fr : ℝ) (tf : ℕ) (ep : Fin n → ℝ) :
    List (TrajEnvStep n) → ℝ → ℕ → (Fin n → ℝ) → Bool → Option (TrajOut n)
  | [], t, _time, q, pre => trajExitCheck delta total ep t q pre
  | e :: rest, t, time, q, pre =>
    match trajExitCheck delta total ep t q pre with
    | some out => some out
    | none =>
        let jV : Fin n → ℝ := fun i => min_jerk_jv fr tf ep q time i * 1500
        let ts : ℝ := time_scaling (Matrix.mulVec (jac q) jV) ms
        trajLoopAux jac ms delta total fr tf ep rest
          (t + delta * ts) (time + 1) e.q (pre || e.pre)

/-- Embedding of `ROSRobot.__traj_move`: `t = 0`, `delta =
1/self.frequency`, `time_freq = int(total_time_cal * frequency)`,
`time = 1`, then the loop. -/
noncomputable def traj_move {n : ℕ}
    (jac : (Fin n → ℝ) → Matrix (Fin 6) (Fin n) ℝ)
    (ms fr : ℝ) (q0 ep : Fin n → ℝ) (pre : Bool)
    (env : List (TrajEnvStep n)) : Option (TrajOut n) :=
  trajLoopAux jac ms (1/fr) (total_time_cal q0 ep) fr
    (Nat.floor (total_time_cal q0 ep * fr)) ep env 0 1 q0 pre

/-- Concrete twist used to exercise the speed-cap scaling: linear part
`(3, 0, 0)`, angular part `(4, 0, 0)`. -/
noncomputable def twistCE : Fin 6 → ℝ :=
  fun i => if i.val = 0 then 3 else if i.val = 3 then 4 else 0

/-! ## Helper lemmas -/

theorem list_map_mul_zero (l : List ℚ) :
    l.map (fun x => x * 0) = List.replicate l.length 0 := by
  induction l with
  | nil => rfl
  | cons a t ih => simp [List.replicate_succ, ih]

theorem list_eq_replicate_zero {l : List ℚ} (h : ∀ x ∈ l, x = 0) :
    l = List.replicate l.length 0 := by
  induction l with
  | nil => rfl
  | cons a t ih =>
    simp only [List.length_cons, List.replicate_succ, List.cons.injEq]
    exact ⟨h a (by simp), ih (fun x hx => h x (by simp [hx]))⟩

theorem list_abs_sum_zero {l : List ℚ} (h : ∀ x ∈ l, x = 0) :
    (l.map (fun y => |y|)).sum = 0 := by
  apply List.sum_eq_zero
  intro x hx
  obtain ⟨y, hy, rfl⟩ := List.mem_map.mp hx
  rw [h y hy, abs_zero]

/-! ## C7: staleness decay -/

theorem stale_decay_eq (v : List ℚ) (elapsed : ℚ) :
    step_ev_decay v elapsed =
      (if elapsed > 1/10 then
        (if (v.map (fun y => |y|)).sum ≥ 1/10000 then
          v.map (fun x => x * (9/10))
         else List.replicate v.length 0)
       else v) := by
  unfold step_ev_decay
  cases hany : v.any (fun x => x != 0) with
  | false =>
    have hz : ∀ x ∈ v, x = 0 := by
      intro x hx
      have := List.any_eq_false.mp hany x hx
      simpa using this
    rw [if_neg (by simp [hany])]
    by_cases hel : elapsed > 1/10
    · rw [if_pos hel, if_neg (by rw [list_abs_sum_zero hz]; norm_num)]
      exact list_eq_replicate_zero hz
    · rw [if_neg hel]
  | true =>
    rw [if_pos (by simp [hany])]
    by_cases hel : elapsed > 1/10
    · rw [if_pos hel, if_pos hel]
      by_cases hsum : (v.map (fun y => |y|)).sum ≥ 1/10000
      · simp only [if_pos hsum]
      · simp only [if_neg hsum]
        exact list_map_mul_zero v
    · rw [if_neg hel, if_neg hel]

/-- C7: for both the cartesian velocity target (`e_v`) and the joint
velocity target (`j_v`), the per-tick staleness rule leaves a fresh
target (elapsed ≤ 0.1 s) undecayed; a stale target is multiplied by 0.9
when the sum of componentwise absolute values is at least `1e-4` and is
snapped to exactly zero when that sum is below `1e-4`. -/
theorem step_decay_spec (v : List ℚ) (elapsed : ℚ) :
    step_ev_decay v elapsed =
      (if elapsed > 1/10 then
        (if (v.map (fun y => |y|)).sum ≥ 1/10000 then
          v.map (fun x => x * (9/10))
         else List.replicate v.length 0)
       else v) ∧
    step_jv_decay v elapsed =
      (if elapsed > 1/10 then
        (if (v.map (fun y => |y|)).sum ≥ 1/10000 then
          v.map (fun x => x * (9/10))
         else List.replicate v.length 0)
       else v) :=
  ⟨stale_decay_eq v elapsed, stale_decay_eq v elapsed⟩

/-! ## C8: guard evaluation -/

/-- C8: the value returned by `test_guards` is the bitwise-or of the
tripped guard masks: the duration guard contributes its mask exactly
when it is enabled and the elapsed time strictly exceeds the configured
duration threshold, and the effort guard contributes its mask exactly
when it is enabled and at least one of the six wrench components has
absolute value strictly above its configured per-component threshold. -/
theorem test_guards_spec (g : Guards) (elapsed : ℚ) (wrench : Fin 6 → ℚ) :
    test_guards g elapsed wrench =
      ((if g.enabled &&& GUARD_DURATION = GUARD_DURATION ∧ elapsed > g.duration
        then GUARD_DURATION else 0) |||
       (if g.enabled &&& GUARD_EFFORT = GUARD_EFFORT ∧ (∃ i, |wrench i| > g.effort i)
        then GUARD_EFFORT else 0)) := by
  unfold test_guards
  by_cases h1 : g.enabled &&& GUARD_DURATION = GUARD_DURATION <;>
    by_cases h2 : elapsed > g.duration <;>
      by_cases h3 : g.enabled &&& GUARD_EFFORT = GUARD_EFFORT <;>
        by_cases h4 : ∃ i, |wrench i| > g.effort i <;>
          simp [h1, h2, h3, h4]

/-! ## C9: preemption -/

/-- C9: `preempt` sets the preemption flag and zeroes the cartesian
velocity target, the joint velocity target, and the commanded output
velocity, and it is idempotent — so after it returns the commanded joint
velocity is all-zero whatever the state was before. -/
theorem preempt_spec (s : CtrlState) :
    (preempt s).preempted = true ∧
    (preempt s).e_v = List.replicate s.e_v.length 0 ∧
    (preempt s).j_v = List.replicate s.j_v.length 0 ∧
    (preempt s).qd = List.replicate s.qd.length 0 ∧
    preempt (preempt s) = preempt s := by
  have h : ∀ l : List ℚ,
      (l.map (fun x => x * 0)).map (fun x => x * 0) = l.map (fun x => x * 0) := by
    intro l
    rw [list_map_mul_zero (l.map (fun x => x * 0)), List.length_map,
      ← list_map_mul_zero l]
  refine ⟨rfl, list_map_mul_zero _, list_map_mul_zero _, list_map_mul_zero _, ?_⟩
  simp only [preempt, h]

/-! ## C2: guarded velocity reply -/

/-- C2 (the code evaluated at the failing inputs): `guarded_velocity_cb`
replies `set_succeeded` with `triggered = True` in every terminating
run — both when the loop ends by preemption with no guard tripped
(first conjunct: preempted at entry, final trip value 0) and when a
guard trips with cause `GUARD_EFFORT = 2` (second conjunct: the computed
cause 2 is not what the reply carries; the reply field is the literal
`True`). -/
theorem guarded_velocity_reply_bug :
    guarded_velocity_cb true [] = some (0, GVReply.setSucceeded true) ∧
    guarded_velocity_cb false [⟨2, false⟩] = some (2, GVReply.setSucceeded true) :=
  ⟨rfl, rfl⟩

/-! ## C3: unknown named pose -/

/-- C3 (the code evaluated at the failing input): on a
move-to-named-pose goal whose name is absent from the store, the
callback sends `set_aborted` but then raises `KeyError`, which escapes
the callback instead of being converted to a failure result at the
request boundary. -/
theorem named_pose_unknown_raises :
    named_pose_cb [] "x" true = ([NPReply.setAborted false], some "KeyError") := rfl

/-! ## Dict lemmas -/

theorem dictGet_insert_self {V : Type} (k : String) (v : V)
    (d : List (String × V)) : dictGet k (dictInsert k v d) = some v := by
  induction d with
  | nil => simp [dictInsert, dictGet]
  | cons kv rest ih =>
    by_cases h : kv.1 = k
    · simp [dictInsert, h, dictGet]
    · simp [dictInsert, h, dictGet, ih]

theorem dictGet_insert_other {V : Type} {k' k : String} (h : k' ≠ k) (v : V)
    (d : List (String × V)) : dictGet k (dictInsert k' v d) = dictGet k d := by
  induction d with
  | nil => simp [dictInsert, dictGet, h]
  | cons kv rest ih =>
    by_cases h2 : kv.1 = k'
    · simp [dictInsert, h2, dictGet, h, fun he => h (h2 ▸ he)]
    · simp only [dictInsert, if_neg h2, dictGet]
      by_cases h3 : kv.1 = k
      · simp [h3]
      · simp [h3, ih]

theorem dictUpdate_cons {V : Type} (d : List (String × V)) (kv : String × V)
    (rest : List (String × V)) :
    dictUpdate d (kv :: rest) = dictUpdate (dictInsert kv.1 kv.2 d) rest := rfl

theorem dictGet_update_of_not_mem {V : Type} {k : String}
    (other : List (String × V)) (hk : ∀ kv ∈ other, kv.1 ≠ k)
    (d : List (String × V)) : dictGet k (dictUpdate d other) = dictGet k d := by
  induction other generalizing d with
  | nil => rfl
  | cons kv rest ih =>
    rw [dictUpdate_cons, ih (fun x hx => hk x (List.mem_cons_of_mem _ hx)),
      dictGet_insert_other (hk kv (List.mem_cons_self kv rest))]

theorem dictGet_update_of_get {V : Type} {k : String} {v : V}
    (other : List (String × V)) (hnd : (other.map Prod.fst).Nodup)
    (hv : dictGet k other = some v) (d : List (String × V)) :
    dictGet k (dictUpdate d other) = some v := by
  induction other generalizing d with
  | nil => simp [dictGet] at hv
  | cons kv rest ih =>
    rw [List.map_cons, List.nodup_cons] at hnd
    rw [dictUpdate_cons]
    by_cases h : kv.1 = k
    · have hv' : kv.2 = v := by
        rw [dictGet, if_pos h] at hv
        exact Option.some.inj hv
      have hrest : ∀ x ∈ rest, x.1 ≠ k := by
        intro x hx he
        exact hnd.1 (h ▸ he ▸ List.mem_map_of_mem Prod.fst hx)
      rw [dictGet_update_of_not_mem rest hrest, h, dictGet_insert_self, hv']
    · have hv' : dictGet k rest = some v := by rwa [dictGet, if_neg h] at hv
      exact ih hnd.2 hv' _

/-! ## C1: config merge order -/

/-- C1 counterexample: with a primary persisted source binding
`home ↦ [0,0,0,0,0,0]` and one auxiliary source binding
`home ↦ [0,0,0,0,0,1]` added afterwards, a full reload yields the
primary value `[0,0,0,0,0,0]` for `home`, not the auxiliary value
`[0,0,0,0,0,1]` the claim requires — `__load_config` loads the
auxiliary sources first and the primary source last, so the primary
wins on key collision. -/
theorem load_config_scenario_counterexample :
    dictGet "home"
      (load_config [some [("home", ([0, 0, 0, 0, 0, 1] : List ℚ))]]
        (some [("home", ([0, 0, 0, 0, 0, 0] : List ℚ))])) =
      some [0, 0, 0, 0, 0, 0] ∧
    dictGet "home"
      (load_config [some [("home", ([0, 0, 0, 0, 0, 1] : List ℚ))]]
        (some [("home", ([0, 0, 0, 0, 0, 0] : List ℚ))])) ≠
      some [0, 0, 0, 0, 0, 1] := by
  constructor
  · rfl
  · decide

/-- C1 (amended): a full reload loads each auxiliary source in list
order first and then overlays the primary persisted source, so on a key
collision the primary entry overwrites the auxiliary ones; any key bound
in the primary source keeps its primary value after the reload. -/
theorem load_config_primary_overrides {V : Type}
    (customs : List (Option (List (String × V)))) (p : List (String × V))
    {k : String} {v : V} (hnd : (p.map Prod.fst).Nodup)
    (hv : dictGet k p = some v) :
    dictGet k (load_config customs (some p)) = some v := by
  unfold load_config
  exact dictGet_update_of_get p hnd hv _

/-- Witness for `load_config_primary_overrides` at the spec's scenario
inputs. -/
theorem load_config_primary_overrides_witness :
    (((([("home", ([0, 0, 0, 0, 0, 0] : List ℚ))]).map Prod.fst).Nodup) ∧
      dictGet "home" [("home", ([0, 0, 0, 0, 0, 0] : List ℚ))] =
        some [0, 0, 0, 0, 0, 0]) ∧
    dictGet "home"
      (load_config [some [("home", ([0, 0, 0, 0, 0, 1] : List ℚ))]]
        (some [("home", ([0, 0, 0, 0, 0, 0] : List ℚ))])) =
      some [0, 0, 0, 0, 0, 0] :=
  ⟨⟨by decide, by decide⟩,
    load_config_primary_overrides _ _ (by decide) (by decide)⟩

/-! ## C4: named-pose store mutations -/

/-- C4 counterexample: `remove` of a name absent from the store is not
always rejected with a clean failure result — when the request sets
`overwrite = true`, the guard is skipped and `del` raises `KeyError`. -/
theorem remove_named_pose_counterexample :
    remove_named_pose_cb [] "a" true = Except.error "KeyError" := rfl

/-- C4 (amended): `add` on an existing name without overwrite is
rejected with a failure result and leaves the store unchanged; `add`
with overwrite replaces the entry; `remove` of an absent name with
`overwrite = false` is rejected with a failure result and leaves the
store unchanged, while `remove` of an absent name with
`overwrite = true` raises `KeyError`. -/
theorem named_pose_mutation_spec (store : List (String × List ℚ))
    (q : List ℚ) (name : String) :
    ((dictGet name store).isSome →
      add_named_pose_cb store q name false = (store, false)) ∧
    (dictGet name (add_named_pose_cb store q name true).1 = some q ∧
      (add_named_pose_cb store q name true).2 = true) ∧
    ((dictGet name store).isNone →
      remove_named_pose_cb store name false = Except.ok (store, false)) ∧
    ((dictGet name store).isNone →
      remove_named_pose_cb store name true = Except.error "KeyError") := by
  refine ⟨?_, ⟨?_, ?_⟩, ?_, ?_⟩
  · intro h
    unfold add_named_pose_cb
    rw [if_pos ⟨h, rfl⟩]
  · unfold add_named_pose_cb
    rw [if_neg (by simp)]
    exact dictGet_insert_self name q store
  · unfold add_named_pose_cb
    rw [if_neg (by simp)]
  · intro h
    unfold remove_named_pose_cb
    rw [if_pos ⟨h, rfl⟩]
  · intro h
    unfold remove_named_pose_cb
    rw [if_neg (by simp), Option.isNone_iff_eq_none.mp h]

/-- Witness for `named_pose_mutation_spec`: a rejected duplicate add on
a store that already binds the name, and a rejected remove on an empty
store. -/
theorem named_pose_mutation_spec_witness :
    (add_named_pose_cb [("a", [1])] [2] "a" false = ([("a", [1])], false)) ∧
    (remove_named_pose_cb [] "b" false = Except.ok ([], false)) :=
  ⟨(named_pose_mutation_spec [("a", [1])] [2] "a").1 (by decide),
    (named_pose_mutation_spec [] [2] "b").2.2.1 (by decide)⟩

/-! ## C10: add stores the live joint configuration -/

theorem add_named_pose_success {store : List (String × List ℚ)} {q : List ℚ}
    {name : String} {o : Bool}
    (h : (add_named_pose_cb store q name o).2 = true) :
    (add_named_pose_cb store q name o).1 = dictInsert name q store := by
  unfold add_named_pose_cb at h ⊢
  by_cases hc : (dictGet name store).isSome ∧ o = false
  · rw [if_pos hc] at h
    exact absurd h (by simp)
  · rw [if_neg hc]

/-- C10: a successful add stores the live joint configuration `self.q`
under the requested name — the request carries no pose payload — so two
successful adds under different names with no intervening motion leave
both names bound to the same vector. -/
theorem add_named_pose_stores_live_config (store : List (String × List ℚ))
    (q : List ℚ) (n1 n2 : String) (o1 o2 : Bool) (hne : n1 ≠ n2)
    (h1 : (add_named_pose_cb store q n1 o1).2 = true)
    (h2 : (add_named_pose_cb (add_named_pose_cb store q n1 o1).1 q n2 o2).2 = true) :
    dictGet n1 (add_named_pose_cb (add_named_pose_cb store q n1 o1).1 q n2 o2).1 =
      some q ∧
    dictGet n2 (add_named_pose_cb (add_named_pose_cb store q n1 o1).1 q n2 o2).1 =
      some q := by
  rw [add_named_pose_success h2, add_named_pose_success h1]
  refine ⟨?_, dictGet_insert_self n2 q _⟩
  rw [dictGet_insert_other (fun he => hne he.symm) q _, dictGet_insert_self n1 q store]

/-- Witness for `add_named_pose_stores_live_config`: two adds of names
`a` and `b` on an empty store with the live configuration `[1, 2]`. -/
theorem add_named_pose_stores_live_config_witness :
    dictGet "a"
      (add_named_pose_cb (add_named_pose_cb [] [1, 2] "a" false).1 [1, 2] "b" false).1 =
      some [1, 2] ∧
    dictGet "b"
      (add_named_pose_cb (add_named_pose_cb [] [1, 2] "a" false).1 [1, 2] "b" false).1 =
      some [1, 2] :=
  add_named_pose_stores_live_config [] [1, 2] "a" "b" false false
    (by decide) (by decide) (by decide)

/-! ## C5: trajectory loop exit behaviour -/

theorem trajExitCheck_spec {n : ℕ} {delta total : ℝ} {ep : Fin n → ℝ}
    {t : ℝ} {q : Fin n → ℝ} {pre : Bool} {out : TrajOut n}
    (h : trajExitCheck delta total ep t q pre = some out) :
    out.j_v = (fun _ => 0) ∧ out.result = !out.preExit ∧ out.preExit = pre ∧
    out.qExit = q ∧ out.tExit = t ∧
    (out.exitCause = TrajExit.preemptStop → pre = true) ∧
    (out.exitCause = TrajExit.arrival → ∀ i, |ep i - q i| < 1/50) ∧
    (out.exitCause = TrajExit.duration → ¬ t + delta < total) := by
  unfold trajExitCheck at h
  by_cases h1 : ¬ t + delta < total
  · rw [if_pos h1] at h
    injection h with h
    subst h
    exact ⟨rfl, rfl, rfl, rfl, rfl, by simp, by simp, fun _ => h1⟩
  · rw [if_neg h1] at h
    by_cases h2 : pre = true
    · rw [if_pos h2] at h
      injection h with h
      subst h
      exact ⟨rfl, rfl, rfl, rfl, rfl, fun _ => h2, by simp, by simp⟩
    · rw [if_neg h2] at h
      by_cases h3 : ∀ i, |ep i - q i| < 1/50
      · rw [if_pos h3] at h
        injection h with h
        subst h
        exact ⟨rfl, rfl, rfl, rfl, rfl, by simp, fun _ => h3, by simp⟩
      · rw [if_neg h3] at h
        exact absurd h (by simp)

theorem trajLoopAux_spec {n : ℕ}
    (jac : (Fin n → ℝ) → Matrix (Fin 6) (Fin n) ℝ)
    (ms delta total fr : ℝ) (tf : ℕ) (ep : Fin n → ℝ) :
    ∀ (env : List (TrajEnvStep n)) (t : ℝ) (time : ℕ) (q : Fin n → ℝ)
      (pre : Bool) (out : TrajOut n),
      trajLoopAux jac ms delta total fr tf ep env t time q pre = some out →
      out.j_v = (fun _ => 0) ∧ out.result = !out.preExit ∧
      (out.exitCause = TrajExit.preemptStop → out.preExit = true) ∧
      (out.exitCause = TrajExit.arrival → ∀ i, |ep i - out.qExit i| < 1/50) ∧
      (out.exitCause = TrajExit.duration → ¬ out.tExit + delta < total) ∧
      (pre = false → (∀ s ∈ env, s.pre = false) → out.preExit = false) := by
  intro env
  induction env with
  | nil =>
    intro t time q pre out h
    simp only [trajLoopAux] at h
    obtain ⟨hj, hr, hp, hq, ht, c1, c2, c3⟩ := trajExitCheck_spec h
    refine ⟨hj, hr, ?_, ?_, ?_, ?_⟩
    · intro hc; rw [hp]; exact c1 hc
    · intro hc; rw [hq]; exact c2 hc
    · intro hc; rw [ht]; exact c3 hc
    · intro hpre _; rw [hp, hpre]
  | cons e rest ih =>
    intro t time q pre out h
    cases hc : trajExitCheck delta total ep t q pre with
    | some out' =>
      simp only [trajLoopAux, hc] at h
      injection h with h
      subst h
      obtain ⟨hj, hr, hp, hq, ht, c1, c2, c3⟩ := trajExitCheck_spec hc
      refine ⟨hj, hr, ?_, ?_, ?_, ?_⟩
      · intro hcz; rw [hp]; exact c1 hcz
      · intro hcz; rw [hq]; exact c2 hcz
      · intro hcz; rw [ht]; exact c3 hcz
      · intro hpre _; rw [hp, hpre]
    | none =>
      simp only [trajLoopAux, hc] at h
      obtain ⟨hj, hr, c1, c2, c3, c4⟩ := ih _ _ _ _ _ h
      refine ⟨hj, hr, c1, c2, c3, ?_⟩
      intro hpre hall
      refine c4 ?_ (fun s hs => hall s (List.mem_cons_of_mem e hs))
      rw [hpre, hall e (List.mem_cons_self e rest)]
      rfl

/-- C5: whenever a run of `__traj_move` exits, it does so on exceeding
the estimated duration, on arrival (at exit every joint is strictly
within 0.02 rad of the goal), or on preemption; the commanded joint
velocity at exit is all-zero, a preemption exit returns `false`, and a
run over an environment that never raises the preemption flag returns
`true`. -/
theorem traj_move_exit_spec {n : ℕ}
    (jac : (Fin n → ℝ) → Matrix (Fin 6) (Fin n) ℝ)
    (ms fr : ℝ) (q0 ep : Fin n → ℝ) (pre : Bool)
    (env : List (TrajEnvStep n)) (out : TrajOut n)
    (h : traj_move jac ms fr q0 ep pre env = some out) :
    out.j_v = (fun _ => 0) ∧
    (out.exitCause = TrajExit.preemptStop → out.result = false) ∧
    (out.exitCause = TrajExit.arrival → ∀ i, |ep i - out.qExit i| < 1/50) ∧
    (out.exitCause = TrajExit.duration →
      ¬ out.tExit + 1/fr < total_time_cal q0 ep) ∧
    (pre = false → (∀ s ∈ env, s.pre = false) → out.result = true) := by
  obtain ⟨hj, hr, c1, c2, c3, c4⟩ :=
    trajLoopAux_spec jac ms (1/fr) (total_time_cal q0 ep) fr
      (Nat.floor (total_time_cal q0 ep * fr)) ep env 0 1 q0 pre out h
  refine ⟨hj, ?_, c2, c3, ?_⟩
  · intro hcz
    rw [hr, c1 hcz]
    rfl
  · intro hpre hall
    rw [hr, c4 hpre hall]
    rfl

/-- Witness for `traj_move_exit_spec`: a one-joint robot already at the
goal; the estimated duration is zero, so the loop exits immediately on
the duration test with a zero commanded velocity and result `true`. -/
theorem traj_move_exit_spec_witness :
    (traj_move (fun _ => (0 : Matrix (Fin 6) (Fin 1) ℝ)) (1/5) 500
        (fun _ => 0) (fun _ => 0) false [] =
      some ⟨TrajExit.duration, true, fun _ => 0, fun _ => 0, false, 0⟩) ∧
    (⟨TrajExit.duration, true, fun _ => 0, fun _ => 0, false, 0⟩ : TrajOut 1).j_v =
      (fun _ => 0) ∧
    (⟨TrajExit.duration, true, fun _ => 0, fun _ => 0, false, 0⟩ : TrajOut 1).result =
      true := by
  have htot : total_time_cal (fun _ : Fin 1 => (0 : ℝ)) (fun _ : Fin 1 => (0 : ℝ)) = 0 := by
    unfold total_time_cal
    norm_num [List.ofFn_succ]
  have heval : traj_move (fun _ => (0 : Matrix (Fin 6) (Fin 1) ℝ)) (1/5) 500
      (fun _ => 0) (fun _ => 0) false [] =
      some ⟨TrajExit.duration, true, fun _ => 0, fun _ => 0, false, 0⟩ := by
    unfold traj_move
    rw [htot]
    show trajExitCheck (1/500) 0 (fun _ => 0) 0 (fun _ => 0) false = _
    unfold trajExitCheck
    rw [if_pos (by norm_num)]
    rfl
  obtain ⟨hj, _, _, _, hres⟩ :=
    traj_move_exit_spec (fun _ => (0 : Matrix (Fin 6) (Fin 1) ℝ)) (1/5) 500
      (fun _ => 0) (fun _ => 0) false [] _ heval
  exact ⟨heval, hj, hres rfl (by simp)⟩

/-! ## C6: speed-cap scaling factor -/

theorem norm6_mul_const (v : Fin 6 → ℝ) {c : ℝ} (hc : 0 ≤ c) :
    norm6 (fun i => v i * c) = norm6 v * c := by
  unfold norm6
  show Real.sqrt ((v 0 * c) ^ 2 + (v 1 * c) ^ 2 + (v 2 * c) ^ 2 +
    (v 3 * c) ^ 2 + (v 4 * c) ^ 2 + (v 5 * c) ^ 2) = _
  rw [show (v 0 * c) ^ 2 + (v 1 * c) ^ 2 + (v 2 * c) ^ 2 + (v 3 * c) ^ 2 +
      (v 4 * c) ^ 2 + (v 5 * c) ^ 2 =
      (v 0 ^ 2 + v 1 ^ 2 + v 2 ^ 2 + v 3 ^ 2 + v 4 ^ 2 + v 5 ^ 2) * c ^ 2 by ring,
    Real.sqrt_mul (by positivity), Real.sqrt_sq hc]

theorem norm3_twistCE : norm3 twistCE = 3 := by
  have e0 : twistCE 0 = 3 := rfl
  have e1 : twistCE 1 = 0 := rfl
  have e2 : twistCE 2 = 0 := rfl
  unfold norm3
  rw [e0, e1, e2, show (3 : ℝ) ^ 2 + 0 ^ 2 + 0 ^ 2 = 3 ^ 2 by norm_num,
    Real.sqrt_sq (by norm_num)]

theorem norm6_twistCE : norm6 twistCE = 5 := by
  have e0 : twistCE 0 = 3 := rfl
  have e1 : twistCE 1 = 0 := rfl
  have e2 : twistCE 2 = 0 := rfl
  have e3 : twistCE 3 = 4 := rfl
  have e4 : twistCE 4 = 0 := rfl
  have e5 : twistCE 5 = 0 := rfl
  unfold norm6
  rw [e0, e1, e2, e3, e4, e5,
    show (3 : ℝ) ^ 2 + 0 ^ 2 + 0 ^ 2 + 4 ^ 2 + 0 ^ 2 + 0 ^ 2 = 5 ^ 2 by norm_num,
    Real.sqrt_sq (by norm_num)]

/-- C6 counterexample: for the twist with linear part `(3, 0, 0)` and
angular part `(4, 0, 0)` under `max_speed = 1`, the linear speed is 3
(so the cap is active), but the common scale factor applied to the
commanded joint velocity and to the time increment is `5/9`, not
`max_speed / linear_speed = 1/3`. -/
theorem time_scaling_counterexample :
    norm3 twistCE = 3 ∧ time_scaling twistCE 1 = 5/9 ∧
    time_scaling twistCE 1 ≠ 1 / norm3 twistCE := by
  have hs : time_scaling twistCE 1 = 5/9 := by
    unfold time_scaling
    rw [if_pos (by rw [norm3_twistCE]; norm_num), norm3_twistCE,
      show (fun i => twistCE i / 3 * 1) = (fun i => twistCE i * (1/3)) by
        funext i; ring,
      norm6_mul_const twistCE (by norm_num), norm6_twistCE]
    norm_num
  refine ⟨norm3_twistCE, hs, ?_⟩
  rw [hs, norm3_twistCE]
  norm_num

/-- C6 (amended): in each trajectory step the joint velocity is
converted to a cartesian twist via the base Jacobian, and whenever the
resulting linear speed exceeds `max_speed` (assumed positive), the
common factor applied to both the commanded joint velocity and the
elapsed-time increment is
`max_speed * (full 6-dof twist norm) / linear_speed ^ 2`, which reduces
to `max_speed / linear_speed` exactly when the angular part of the
twist is zero. -/
theorem time_scaling_formula (twist : Fin 6 → ℝ) (max_speed : ℝ)
    (hcap : norm3 twist > max_speed) (hms : 0 < max_speed) :
    time_scaling twist max_speed = max_speed * norm6 twist / (norm3 twist) ^ 2 ∧
    ((twist 3 = 0 ∧ twist 4 = 0 ∧ twist 5 = 0) →
      time_scaling twist max_speed = max_speed / norm3 twist) := by
  have hL : 0 < norm3 twist := lt_trans hms hcap
  have key : time_scaling twist max_speed =
      max_speed * norm6 twist / (norm3 twist) ^ 2 := by
    unfold time_scaling
    rw [if_pos hcap,
      show (fun i => twist i / norm3 twist * max_speed) =
        (fun i => twist i * (max_speed / norm3 twist)) by funext i; ring,
      norm6_mul_const twist (le_of_lt (div_pos hms hL))]
    field_simp
    ring
  refine ⟨key, fun ⟨h3, h4, h5⟩ => ?_⟩
  have h63 : norm6 twist = norm3 twist := by
    unfold norm6 norm3
    rw [h3, h4, h5]
    norm_num
  rw [key, h63, sq]
  rw [mul_div_mul_right _ _ (ne_of_gt hL)]

/-- Witness for `time_scaling_formula` at the twist `(3, 0, 0, 4, 0, 0)`
with `max_speed = 1`: the cap is active (`3 > 1`) and the common scale
factor equals `1 * 5 / 3 ^ 2 = 5/9`. -/
theorem time_scaling_formula_witness :
    norm3 twistCE > 1 ∧ (0 : ℝ) < 1 ∧
    time_scaling twistCE 1 = 1 * norm6 twistCE / (norm3 twistCE) ^ 2 :=
  ⟨by rw [norm3_twistCE]; norm_num, by norm_num,
    (time_scaling_formula twistCE 1 (by rw [norm3_twistCE]; norm_num)
      (by norm_num)).1⟩

end Armer
